import Mathlib

/-!
Verification of the exponential-backoff retry helper `fetchWithBackoff` of
`src/src/App.jsx`.  The helper appears twice, verbatim, in the source: once
inside the `DocBotPage` component (lines 419-438) and once inside the
`PredictionPage` component (lines 705-724):

  const fetchWithBackoff = useCallback(async (url, options, retries = 3, delay = 1000) => {
    for (let i = 0; i < retries; i++) {
      try {
        const response = await fetch(url, options);
        if (response.ok) {
          return response;
        } else if (response.status === 429 && i < retries - 1) {
          await new Promise(resolve => setTimeout(resolve, delay));
          delay *= 2; // Exponential backoff
          continue;
        } else {
          throw new Error(`API returned status \x7bresponse.status\x7d`);
        }
      } catch (error) {
        if (i === retries - 1) throw error;
        await new Promise(resolve => setTimeout(resolve, delay));
        delay *= 2;
      }
    }
  }, []);

We embed each copy as a Lean function over an explicit transport oracle.
One call to `fetch(url, options)` on attempt `i` is modelled by
`transport url options i`, which either yields a response (a status code and
an opaque body) or throws a transport-level error (carried as a string, the
JS error value).  The embedding returns a full trace of a call: the number
of attempts issued, the list of backoff waits performed (in milliseconds, in
order), and the final result — the returned response, the thrown error, or
`undefined` when the loop body never runs and the async function resolves
with no value.

The `for` loop is embedded by structural recursion on the number of loop
iterations that remain, which at entry is `retries.toNat` (the loop
`for (let i = 0; i < retries; i++)` performs at most `max(retries, 0)`
iterations).  Writing `rem` for the iterations remaining after the current
one, the loop tests translate as: `i < retries - 1` iff `0 < rem`, and
`i === retries - 1` iff `rem = 0`.  The attempt index `i` is still carried
explicitly so the transport oracle sees the same argument `fetch` sees per
iteration.
-/

/-- A received HTTP response: its status code and an opaque body.  In the
Fetch API, `response.ok` holds exactly when the status is in 200..299. -/
structure Response where
  status : Nat
  body : String
deriving DecidableEq, Repr

/-- The `response.ok` accessor of the Fetch API: status in the range 200-299. -/
def Response.ok (r : Response) : Bool :=
  decide (200 ≤ r.status) && decide (r.status ≤ 299)

/-- The outcome of one `await fetch(url, options)`: either a response was
received, or the call threw a transport-level error (network failure etc.),
carried as an opaque string. -/
inductive FetchOutcome where
  | resp (r : Response)
  | throwErr (e : String)
deriving DecidableEq, Repr

/-- The final result of a call to `fetchWithBackoff`: a returned response, a
thrown error (carried as its string reason), or `undefined` when the loop
never runs. -/
inductive FetchResult where
  | success (r : Response)
  | thrown (e : String)
  | undef
deriving DecidableEq, Repr

/-- The observable trace of one call: how many attempts (`fetch` calls) were
issued, the list of backoff waits performed between attempts (in order, in
milliseconds), and the final result. -/
structure Trace where
  attempts : Nat
  waits : List Nat
  result : FetchResult
deriving DecidableEq, Repr

/-- The message of the error the source constructs for a non-ok response:
`new Error(`API returned status ...`)`. -/
def statusMsg (s : Nat) : String :=
  "API returned status " ++ toString s

/-- The string reason the loop ends up throwing when the attempt with this
outcome is the last one: the transport error itself, or the constructed
status message. -/
def outcomeReason : FetchOutcome → String
  | .resp r => statusMsg r.status
  | .throwErr e => e

namespace DocBotPage

/-- The loop body of `fetchWithBackoff` as defined inside `DocBotPage`
(src/src/App.jsx lines 420-437), by recursion on the remaining iteration
count.  `remaining` counts the loop iterations still to run (current one
included), `i` is the JS loop counter, `delay` the current backoff delay,
and `attempts`/`waits` accumulate the trace. -/
def fetchLoop (transport : Nat → FetchOutcome) :
    Nat → Nat → Nat → Nat → List Nat → Trace
  | 0, _, _, attempts, waits => ⟨attempts, waits, .undef⟩
  | rem + 1, i, delay, attempts, waits =>
    match transport i with
    | .resp r =>
      if r.ok then
        ⟨attempts + 1, waits, .success r⟩
      else if r.status = 429 ∧ 0 < rem then
        fetchLoop transport rem (i + 1) (delay * 2) (attempts + 1) (waits ++ [delay])
      else if rem = 0 then
        ⟨attempts + 1, waits, .thrown (statusMsg r.status)⟩
      else
        fetchLoop transport rem (i + 1) (delay * 2) (attempts + 1) (waits ++ [delay])
    | .throwErr e =>
      if rem = 0 then
        ⟨attempts + 1, waits, .thrown e⟩
      else
        fetchLoop transport rem (i + 1) (delay * 2) (attempts + 1) (waits ++ [delay])

/-- `fetchWithBackoff(url, options, retries, delay)` of `DocBotPage`
(src/src/App.jsx lines 419-438).  `retries` is an integer so a non-positive
attempt budget is representable; the loop then runs `retries.toNat = 0`
iterations. -/
def fetchWithBackoff (url options : String)
    (transport : String → String → Nat → FetchOutcome)
    (retries : Int) (delay : Nat) : Trace :=
  fetchLoop (transport url options) retries.toNat 0 delay 0 []

/-- The default arguments of the source: `retries = 3, delay = 1000`. -/
def fetchWithBackoffDefaults (url options : String)
    (transport : String → String → Nat → FetchOutcome) : Trace :=
  fetchWithBackoff url options transport 3 1000

end DocBotPage

namespace PredictionPage

/-- The loop body of `fetchWithBackoff` as defined inside `PredictionPage`
(src/src/App.jsx lines 706-723); the source text is identical to the
`DocBotPage` copy, and so is this embedding. -/
def fetchLoop (transport : Nat → FetchOutcome) :
    Nat → Nat → Nat → Nat → List Nat → Trace
  | 0, _, _, attempts, waits => ⟨attempts, waits, .undef⟩
  | rem + 1, i, delay, attempts, waits =>
    match transport i with
    | .resp r =>
      if r.ok then
        ⟨attempts + 1, waits, .success r⟩
      else if r.status = 429 ∧ 0 < rem then
        fetchLoop transport rem (i + 1) (delay * 2) (attempts + 1) (waits ++ [delay])
      else if rem = 0 then
        ⟨attempts + 1, waits, .thrown (statusMsg r.status)⟩
      else
        fetchLoop transport rem (i + 1) (delay * 2) (attempts + 1) (waits ++ [delay])
    | .throwErr e =>
      if rem = 0 then
        ⟨attempts + 1, waits, .thrown e⟩
      else
        fetchLoop transport rem (i + 1) (delay * 2) (attempts + 1) (waits ++ [delay])

/-- `fetchWithBackoff(url, options, retries, delay)` of `PredictionPage`
(src/src/App.jsx lines 705-724). -/
def fetchWithBackoff (url options : String)
    (transport : String → String → Nat → FetchOutcome)
    (retries : Int) (delay : Nat) : Trace :=
  fetchLoop (transport url options) retries.toNat 0 delay 0 []

end PredictionPage

/-- A transport outcome is transient in the sense of the spec: a thrown
transport error, or a received response with status 429. -/
def transientOutcome : FetchOutcome → Prop
  | .resp r => r.status = 429
  | .throwErr _ => True

instance : DecidablePred transientOutcome := fun o => by
  cases o with
  | resp r => exact inferInstanceAs (Decidable (r.status = 429))
  | throwErr e => exact inferInstanceAs (Decidable True)

/-- A transport outcome that the loop returns from: a response with a
success status. -/
def okOutcome : FetchOutcome → Prop
  | .resp r => r.ok = true
  | .throwErr _ => False

instance : DecidablePred okOutcome := fun o => by
  cases o with
  | resp r => exact inferInstanceAs (Decidable (r.ok = true))
  | throwErr e => exact inferInstanceAs (Decidable False)

/-- The geometric wait schedule: `k` waits starting at `d` and doubling. -/
def geomList (d : Nat) (k : Nat) : List Nat :=
  (List.range k).map (fun j => d * 2 ^ j)

/-- A transport that is rate-limited (status 429) on every attempt. -/
def alwaysRateLimited : String → String → Nat → FetchOutcome :=
  fun _ _ _ => .resp ⟨429, ""⟩

/-- A fixed example endpoint address, used for concrete runs. -/
def exampleUrl : String := "https://example.invalid/api"

/-- A fixed example options value, used for concrete runs. -/
def exampleOptions : String := "POST"

/-- The error message the loop constructs for a status-429 response. -/
def rateLimitMsg : String := statusMsg 429

/-- A transport that yields a 500 response on every attempt. -/
def alwaysServerError : String → String → Nat → FetchOutcome :=
  fun _ _ _ => .resp ⟨500, ""⟩

/-- A transport that is rate-limited on attempts 1 and 2 and answers 200 OK
on attempt 3 (indices 0, 1 and 2). -/
def rateLimitedTwiceThenOk : String → String → Nat → FetchOutcome :=
  fun _ _ i => if i ≤ 1 then .resp ⟨429, ""⟩ else .resp ⟨200, "OK"⟩


lemma geomList_length (d k : Nat) : (geomList d k).length = k := by
  simp [geomList]

lemma geomList_succ_left (d k : Nat) : geomList d (k + 1) = d :: geomList (d * 2) k := by
  simp only [geomList, List.range_succ_eq_map, List.map_cons, List.map_map, pow_zero, mul_one]
  congr 1
  apply List.map_congr_left
  intro j _
  simp [Function.comp, pow_succ]
  ring

lemma geomList_get (d k j : Nat) (hj : j < (geomList d k).length) :
    (geomList d k).get ⟨j, hj⟩ = d * 2 ^ j := by
  simp [geomList]

namespace DocBotPage

lemma fetchLoop_ok_step (t : Nat → FetchOutcome) (rem i d a w) (r : Response)
    (ht : t i = .resp r) (hok : r.ok = true) (hrem : 0 < rem) :
    fetchLoop t rem i d a w = ⟨a + 1, w, .success r⟩ := by
  cases rem with
  | zero => omega
  | succ rem' => simp [fetchLoop, ht, hok]

lemma transient_not_ok {o : FetchOutcome} (h : transientOutcome o) : ¬ okOutcome o := by
  cases o with
  | resp r =>
    simp only [transientOutcome] at h
    simp [okOutcome, Response.ok, h]
  | throwErr e => simp [okOutcome]

lemma fetchLoop_retry_step (t : Nat → FetchOutcome) (rem i d a w)
    (ht : transientOutcome (t i)) (hrem : 0 < rem) :
    fetchLoop t (rem + 1) i d a w
      = fetchLoop t rem (i + 1) (d * 2) (a + 1) (w ++ [d]) := by
  cases h : t i with
  | resp r =>
    have h429 : r.status = 429 := by simpa [transientOutcome, h] using ht
    have hok : r.ok = false := by simp [Response.ok, h429]
    simp [fetchLoop, h, hok, h429, hrem]
  | throwErr e =>
    simp [fetchLoop, h]
    omega

lemma fetchLoop_last_step (t : Nat → FetchOutcome) (i d a w)
    (ht : ¬ okOutcome (t i)) :
    fetchLoop t 1 i d a w = ⟨a + 1, w, .thrown (outcomeReason (t i))⟩ := by
  cases h : t i with
  | resp r =>
    have hok : r.ok = false := by
      rw [h] at ht
      simpa [okOutcome] using ht
    simp [fetchLoop, h, hok, outcomeReason]
  | throwErr e =>
    simp [fetchLoop, h, outcomeReason]

lemma fetchLoop_transient (t : Nat → FetchOutcome) (ht : ∀ j, transientOutcome (t j)) :
    ∀ rem i d a w, 0 < rem →
      fetchLoop t rem i d a w
        = ⟨a + rem, w ++ geomList d (rem - 1), .thrown (outcomeReason (t (i + rem - 1)))⟩ := by
  intro rem
  induction rem with
  | zero => omega
  | succ rem' ih =>
    intro i d a w _
    rcases Nat.eq_zero_or_pos rem' with hz | hpos
    · subst hz
      rw [fetchLoop_last_step t i d a w (transient_not_ok (ht i))]
      simp [geomList]
    · rw [fetchLoop_retry_step t rem' i d a w (ht i) hpos]
      rw [ih (i + 1) (d * 2) (a + 1) (w ++ [d]) hpos]
      have e1 : a + 1 + rem' = a + (rem' + 1) := by omega
      have e2 : i + 1 + rem' - 1 = i + (rem' + 1) - 1 := by omega
      have e3 : w ++ [d] ++ geomList (d * 2) (rem' - 1) = w ++ geomList d (rem' + 1 - 1) := by
        have h4 : rem' + 1 - 1 = (rem' - 1) + 1 := by omega
        rw [h4, geomList_succ_left]
        simp
      rw [e1, e2, e3]

lemma fetchLoop_transient_prefix (t : Nat → FetchOutcome) :
    ∀ m rem i d a w, m < rem → (∀ j, j < m → transientOutcome (t (i + j))) →
      fetchLoop t rem i d a w
        = fetchLoop t (rem - m) (i + m) (d * 2 ^ m) (a + m) (w ++ geomList d m) := by
  intro m
  induction m with
  | zero =>
    intro rem i d a w _ _
    simp [geomList]
  | succ m' ih =>
    intro rem i d a w hm ht
    obtain ⟨rem'', rfl⟩ : ∃ rem'', rem = rem'' + 1 := ⟨rem - 1, by omega⟩
    have hstep := fetchLoop_retry_step t rem'' i d a w (by simpa using ht 0 (by omega)) (by omega)
    rw [hstep]
    rw [ih rem'' (i + 1) (d * 2) (a + 1) (w ++ [d]) (by omega)
      (fun j hj => by
        have := ht (j + 1) (by omega)
        simpa [Nat.add_assoc, Nat.add_comm 1 j] using this)]
    have e1 : rem'' - m' = rem'' + 1 - (m' + 1) := by omega
    have e2 : i + 1 + m' = i + (m' + 1) := by omega
    have e3 : a + 1 + m' = a + (m' + 1) := by omega
    have e4 : d * 2 * 2 ^ m' = d * 2 ^ (m' + 1) := by ring
    have e5 : w ++ [d] ++ geomList (d * 2) m' = w ++ geomList d (m' + 1) := by
      rw [geomList_succ_left]
      simp
    rw [e1, e2, e3, e4, e5]

lemma fetchLoop_waits (t : Nat → FetchOutcome) :
    ∀ rem i d a w, ∃ m, (fetchLoop t rem i d a w).waits = w ++ geomList d m := by
  intro rem
  induction rem with
  | zero =>
    intro i d a w
    exact ⟨0, by simp [fetchLoop, geomList]⟩
  | succ rem' ih =>
    intro i d a w
    cases h : t i with
    | resp r =>
      by_cases hok : r.ok
      · exact ⟨0, by simp [fetchLoop, h, hok, geomList]⟩
      · by_cases h429 : r.status = 429 ∧ 0 < rem'
        · obtain ⟨m, hm⟩ := ih (i + 1) (d * 2) (a + 1) (w ++ [d])
          refine ⟨m + 1, ?_⟩
          rw [geomList_succ_left]
          simp only [fetchLoop, h]
          rw [if_neg hok, if_pos h429, hm]
          simp
        · by_cases hz : rem' = 0
          · exact ⟨0, by simp [fetchLoop, h, hok, h429, hz, geomList]⟩
          · obtain ⟨m, hm⟩ := ih (i + 1) (d * 2) (a + 1) (w ++ [d])
            refine ⟨m + 1, ?_⟩
            rw [geomList_succ_left]
            simp only [fetchLoop, h]
            rw [if_neg hok, if_neg h429, if_neg hz, hm]
            simp
    | throwErr e =>
      by_cases hz : rem' = 0
      · exact ⟨0, by simp [fetchLoop, h, hz, geomList]⟩
      · obtain ⟨m, hm⟩ := ih (i + 1) (d * 2) (a + 1) (w ++ [d])
        refine ⟨m + 1, ?_⟩
        rw [geomList_succ_left]
        simp only [fetchLoop, h]
        rw [if_neg hz, hm]
        simp

lemma fetchLoop_total (t : Nat → FetchOutcome) :
    ∀ rem i d a w, 0 < rem →
      (∃ r, (fetchLoop t rem i d a w).result = .success r) ∨
      (∃ e, (fetchLoop t rem i d a w).result = .thrown e) := by
  intro rem
  induction rem with
  | zero => omega
  | succ rem' ih =>
    intro i d a w _
    cases h : t i with
    | resp r =>
      by_cases hok : r.ok
      · exact Or.inl ⟨r, by simp [fetchLoop, h, hok]⟩
      · by_cases h429 : r.status = 429 ∧ 0 < rem'
        · have := ih (i + 1) (d * 2) (a + 1) (w ++ [d]) h429.2
          simpa [fetchLoop, h, hok, h429] using this
        · by_cases hz : rem' = 0
          · exact Or.inr ⟨statusMsg r.status, by simp [fetchLoop, h, hok, h429, hz]⟩
          · have := ih (i + 1) (d * 2) (a + 1) (w ++ [d]) (by omega)
            simpa [fetchLoop, h, hok, h429, hz] using this
    | throwErr e =>
      by_cases hz : rem' = 0
      · exact Or.inr ⟨e, by simp [fetchLoop, h, hz]⟩
      · have := ih (i + 1) (d * 2) (a + 1) (w ++ [d]) (by omega)
        simpa [fetchLoop, h, hz] using this

lemma fetchLoop_thrown_reason (t : Nat → FetchOutcome) :
    ∀ rem i d a w e, (fetchLoop t rem i d a w).result = .thrown e →
      a < (fetchLoop t rem i d a w).attempts ∧
      e = outcomeReason (t (i + ((fetchLoop t rem i d a w).attempts - a) - 1)) := by
  intro rem
  induction rem with
  | zero =>
    intro i d a w e h
    simp [fetchLoop] at h
  | succ rem' ih =>
    intro i d a w e h
    cases ht : t i with
    | resp r =>
      by_cases hok : r.ok
      · simp [fetchLoop, ht, hok] at h
      · by_cases h429 : r.status = 429 ∧ 0 < rem'
        · rw [show fetchLoop t (rem' + 1) i d a w
              = fetchLoop t rem' (i + 1) (d * 2) (a + 1) (w ++ [d]) by
            simp [fetchLoop, ht, hok, h429]] at h ⊢
          obtain ⟨h1, h2⟩ := ih (i + 1) (d * 2) (a + 1) (w ++ [d]) e h
          refine ⟨by omega, ?_⟩
          rw [h2]
          congr 2
          omega
        · by_cases hz : rem' = 0
          · rw [show fetchLoop t (rem' + 1) i d a w
                = ⟨a + 1, w, .thrown (statusMsg r.status)⟩ by
              simp [fetchLoop, ht, hok, h429, hz]] at h ⊢
            simp only at h
            have he : statusMsg r.status = e := by
              simpa using h
            refine ⟨by show a < a + 1; omega, ?_⟩
            show e = outcomeReason (t (i + (a + 1 - a) - 1))
            have harg : i + (a + 1 - a) - 1 = i := by omega
            rw [harg, ht]
            simp [outcomeReason, he]
          · rw [show fetchLoop t (rem' + 1) i d a w
                = fetchLoop t rem' (i + 1) (d * 2) (a + 1) (w ++ [d]) by
              simp [fetchLoop, ht, hok, h429, hz]] at h ⊢
            obtain ⟨h1, h2⟩ := ih (i + 1) (d * 2) (a + 1) (w ++ [d]) e h
            refine ⟨by omega, ?_⟩
            rw [h2]
            congr 2
            omega
    | throwErr e' =>
      by_cases hz : rem' = 0
      · rw [show fetchLoop t (rem' + 1) i d a w = ⟨a + 1, w, .thrown e'⟩ by
          simp [fetchLoop, ht, hz]] at h ⊢
        have he : e' = e := by
          simpa using h
        refine ⟨by show a < a + 1; omega, ?_⟩
        show e = outcomeReason (t (i + (a + 1 - a) - 1))
        have harg : i + (a + 1 - a) - 1 = i := by omega
        rw [harg, ht]
        simp [outcomeReason, he]
      · rw [show fetchLoop t (rem' + 1) i d a w
            = fetchLoop t rem' (i + 1) (d * 2) (a + 1) (w ++ [d]) by
          simp [fetchLoop, ht, hz]] at h ⊢
        obtain ⟨h1, h2⟩ := ih (i + 1) (d * 2) (a + 1) (w ++ [d]) e h
        refine ⟨by omega, ?_⟩
        rw [h2]
        congr 2
        omega

end DocBotPage

lemma fetchLoop_copies_eq (t : Nat → FetchOutcome) :
    ∀ rem i d a w, DocBotPage.fetchLoop t rem i d a w = PredictionPage.fetchLoop t rem i d a w := by
  intro rem
  induction rem with
  | zero =>
    intro i d a w
    rfl
  | succ rem' ih =>
    intro i d a w
    simp only [DocBotPage.fetchLoop, PredictionPage.fetchLoop]
    cases t i with
    | resp r =>
      by_cases hok : r.ok
      · simp [hok]
      · by_cases h429 : r.status = 429 ∧ 0 < rem'
        · simp [hok, h429, ih]
        · by_cases hz : rem' = 0
          · simp [hok, h429, hz]
          · simp [hok, h429, hz, ih]
    | throwErr e =>
      by_cases hz : rem' = 0
      · simp [hz]
      · simp [hz, ih]

/-- C1 (code behaviour at the failing input): with the default budget of 3
attempts, a transport answering status 500 on the first attempt does NOT
make `fetchWithBackoff` fail immediately after 1 attempt — the constructed
status error is caught by the surrounding catch, so the code backs off
(waits of 1000 and 2000 ms) and issues 3 attempts before the error
surfaces. -/
theorem C1_code_behavior_at_fatal_status :
    DocBotPage.fetchWithBackoff exampleUrl exampleOptions alwaysServerError 3 1000
      = ⟨3, [1000, 2000], .thrown (statusMsg 500)⟩ := by
  rfl

/-- C2: with an attempt budget `retries = n ≥ 1` and a transport failing
transiently (throw or status 429) on every attempt, `fetchWithBackoff`
issues exactly `n` attempts and the raised error is the last failure's
reason. -/
theorem C2_transient_failures_exhaust_budget (url options : String)
    (transport : String → String → Nat → FetchOutcome) (retries : Int) (delay : Nat)
    (hr : 1 ≤ retries) (ht : ∀ j, transientOutcome (transport url options j)) :
    (DocBotPage.fetchWithBackoff url options transport retries delay).attempts = retries.toNat ∧
    (DocBotPage.fetchWithBackoff url options transport retries delay).result
      = .thrown (outcomeReason (transport url options (retries.toNat - 1))) := by
  have h0 : 0 < retries.toNat := by omega
  unfold DocBotPage.fetchWithBackoff
  rw [DocBotPage.fetchLoop_transient (transport url options) ht retries.toNat 0 delay 0 [] h0]
  constructor <;> simp

/-- Witness for C2 at a concrete input: an always-429 transport with budget
3 gives 3 attempts and the 429 error. -/
theorem C2_witness :
    (DocBotPage.fetchWithBackoff exampleUrl exampleOptions alwaysRateLimited 3 1000).attempts
      = (3 : Int).toNat ∧
    (DocBotPage.fetchWithBackoff exampleUrl exampleOptions alwaysRateLimited 3 1000).result
      = .thrown (outcomeReason (alwaysRateLimited exampleUrl exampleOptions ((3 : Int).toNat - 1))) :=
  C2_transient_failures_exhaust_budget exampleUrl exampleOptions alwaysRateLimited 3 1000
    (by decide) (fun _ => rfl)

/-- C3: with a positive attempt budget, every call ends with either a
returned success response or a raised error — never the undefined result. -/
theorem C3_terminates_with_success_or_error (url options : String)
    (transport : String → String → Nat → FetchOutcome) (retries : Int) (delay : Nat)
    (hr : 1 ≤ retries) :
    (∃ r, (DocBotPage.fetchWithBackoff url options transport retries delay).result
        = .success r) ∨
    (∃ e, (DocBotPage.fetchWithBackoff url options transport retries delay).result
        = .thrown e) := by
  have h0 : 0 < retries.toNat := by omega
  unfold DocBotPage.fetchWithBackoff
  exact DocBotPage.fetchLoop_total (transport url options) retries.toNat 0 delay 0 [] h0

/-- Witness for C3 at a concrete input. -/
theorem C3_witness :
    (∃ r, (DocBotPage.fetchWithBackoff exampleUrl exampleOptions alwaysRateLimited 1 1000).result
        = .success r) ∨
    (∃ e, (DocBotPage.fetchWithBackoff exampleUrl exampleOptions alwaysRateLimited 1 1000).result
        = .thrown e) :=
  C3_terminates_with_success_or_error exampleUrl exampleOptions alwaysRateLimited 1 1000 (by decide)

/-- C4: if the transport fails transiently on the first `k - 1` attempts
and attempt `k ≤ retries` receives a success-status response, the call
returns that response after exactly `k` attempts and `k - 1` waits. -/
theorem C4_success_on_attempt_k (url options : String)
    (transport : String → String → Nat → FetchOutcome) (retries : Int) (delay : Nat)
    (k : Nat) (hk1 : 1 ≤ k) (hkn : (k : Int) ≤ retries)
    (ht : ∀ j, j < k - 1 → transientOutcome (transport url options j))
    (r : Response) (hresp : transport url options (k - 1) = .resp r) (hok : r.ok = true) :
    DocBotPage.fetchWithBackoff url options transport retries delay
      = ⟨k, geomList delay (k - 1), .success r⟩ := by
  have hkn' : k ≤ retries.toNat := by omega
  unfold DocBotPage.fetchWithBackoff
  rw [DocBotPage.fetchLoop_transient_prefix (transport url options) (k - 1) retries.toNat
    0 delay 0 [] (by omega) (fun j hj => by simpa using ht j hj)]
  rw [DocBotPage.fetchLoop_ok_step (transport url options) (retries.toNat - (k - 1))
    (0 + (k - 1)) (delay * 2 ^ (k - 1)) (0 + (k - 1)) ([] ++ geomList delay (k - 1)) r
    (by simpa using hresp) hok (by omega)]
  simp only [Nat.zero_add, List.nil_append]
  have hk : k - 1 + 1 = k := by omega
  rw [hk]

/-- Witness for C4: two rate-limited attempts then a 200 response, with
budget 3, return the success after 3 attempts and waits of 1000 and
2000 ms. -/
theorem C4_witness :
    DocBotPage.fetchWithBackoff exampleUrl exampleOptions rateLimitedTwiceThenOk 3 1000
      = ⟨3, geomList 1000 2, .success ⟨200, "OK"⟩⟩ :=
  C4_success_on_attempt_k exampleUrl exampleOptions rateLimitedTwiceThenOk 3 1000 3
    (by decide) (by decide)
    (fun j hj => by
      have hj1 : j ≤ 1 := by omega
      simp [rateLimitedTwiceThenOk, transientOutcome, hj1])
    ⟨200, "OK"⟩ rfl rfl

/-- C5: the end-to-end scenario — budget 3, initial delay 1000 ms,
transport answering 429, 429, then 200 OK — returns the OK response after
3 attempts with waits of exactly 1000 then 2000 ms; and in every call the
j-th wait (0-indexed) equals `delay * 2 ^ j`. -/
theorem C5_backoff_schedule :
    (DocBotPage.fetchWithBackoff exampleUrl exampleOptions rateLimitedTwiceThenOk 3 1000
        = ⟨3, [1000, 2000], .success ⟨200, "OK"⟩⟩) ∧
    ∀ (url options : String) (transport : String → String → Nat → FetchOutcome)
      (retries : Int) (delay : Nat) (j : Nat)
      (hj : j < (DocBotPage.fetchWithBackoff url options transport retries delay).waits.length),
      (DocBotPage.fetchWithBackoff url options transport retries delay).waits.get ⟨j, hj⟩
        = delay * 2 ^ j := by
  refine ⟨rfl, ?_⟩
  intro url options transport retries delay j hj
  obtain ⟨m, hm⟩ := DocBotPage.fetchLoop_waits (transport url options) retries.toNat 0 delay 0 []
  simp only [List.nil_append] at hm
  have hm' : (DocBotPage.fetchWithBackoff url options transport retries delay).waits
      = geomList delay m := hm
  rw [List.get_of_eq hm' ⟨j, hj⟩]
  exact geomList_get delay m j _

/-- Witness for C5's schedule law at a concrete input: the first wait of
the 429-429-OK run is 1000 ms. -/
theorem C5_witness :
    (DocBotPage.fetchWithBackoff exampleUrl exampleOptions rateLimitedTwiceThenOk 3 1000).waits.get
      ⟨0, by decide⟩ = 1000 * 2 ^ 0 :=
  C5_backoff_schedule.2 exampleUrl exampleOptions rateLimitedTwiceThenOk 3 1000 0 (by decide)

/-- C6: with an attempt budget of 1, the call issues exactly one attempt
and performs no wait, and whenever that attempt does not yield a
success-status response the call raises that failure's reason as an
error. -/
theorem C6_budget_one_never_retries (url options : String)
    (transport : String → String → Nat → FetchOutcome) (delay : Nat) :
    (DocBotPage.fetchWithBackoff url options transport 1 delay).attempts = 1 ∧
    (DocBotPage.fetchWithBackoff url options transport 1 delay).waits = [] ∧
    (¬ okOutcome (transport url options 0) →
      (DocBotPage.fetchWithBackoff url options transport 1 delay).result
        = .thrown (outcomeReason (transport url options 0))) := by
  unfold DocBotPage.fetchWithBackoff
  have h1 : (1 : Int).toNat = 1 := rfl
  rw [h1]
  by_cases hok : okOutcome (transport url options 0)
  · cases h : transport url options 0 with
    | resp r =>
      rw [h] at hok
      have hok' : r.ok = true := hok
      rw [DocBotPage.fetchLoop_ok_step (transport url options) 1 0 delay 0 [] r h hok'
        (by omega)]
      refine ⟨rfl, rfl, fun hno => absurd hok hno⟩
    | throwErr e =>
      rw [h] at hok
      exact absurd hok (by simp [okOutcome])
  · rw [DocBotPage.fetchLoop_last_step (transport url options) 0 delay 0 [] hok]
    exact ⟨rfl, rfl, fun _ => rfl⟩

/-- Witness for C6: a 429 answer with budget 1 raises the 429 error after
the single attempt. -/
theorem C6_witness :
    (DocBotPage.fetchWithBackoff exampleUrl exampleOptions alwaysRateLimited 1 1000).result
      = .thrown (outcomeReason (alwaysRateLimited exampleUrl exampleOptions 0)) :=
  (C6_budget_one_never_retries exampleUrl exampleOptions alwaysRateLimited 1000).2.2 (by decide)

/-- C7 counterexample: no function can read the number of attempts off the
raised error value — budgets 1 and 2 against an always-429 transport raise
the very same error string after 1 and 2 attempts respectively, so the
error does not carry the attempt count. -/
theorem C7_error_does_not_carry_attempt_count :
    ¬ ∃ f : String → Nat,
      ∀ (url options : String) (transport : String → String → Nat → FetchOutcome)
        (retries : Int) (delay : Nat) (e : String),
        (DocBotPage.fetchWithBackoff url options transport retries delay).result = .thrown e →
        f e = (DocBotPage.fetchWithBackoff url options transport retries delay).attempts := by
  rintro ⟨f, hf⟩
  have h1 := hf exampleUrl exampleOptions alwaysRateLimited 1 1000 rateLimitMsg rfl
  have h2 := hf exampleUrl exampleOptions alwaysRateLimited 2 1000 rateLimitMsg rfl
  have e1 : (DocBotPage.fetchWithBackoff exampleUrl exampleOptions alwaysRateLimited 1 1000).attempts
      = 1 := rfl
  have e2 : (DocBotPage.fetchWithBackoff exampleUrl exampleOptions alwaysRateLimited 2 1000).attempts
      = 2 := rfl
  rw [e1] at h1
  rw [e2] at h2
  omega

/-- C7 amended: every raised error carries the last underlying failure
reason as a string — it is exactly the reason of the final attempt (the
transport error, or the message naming the fatal or rate-limit status). -/
theorem C7_error_carries_last_reason (url options : String)
    (transport : String → String → Nat → FetchOutcome) (retries : Int) (delay : Nat)
    (e : String)
    (h : (DocBotPage.fetchWithBackoff url options transport retries delay).result = .thrown e) :
    e = outcomeReason (transport url options
      ((DocBotPage.fetchWithBackoff url options transport retries delay).attempts - 1)) := by
  unfold DocBotPage.fetchWithBackoff at h ⊢
  obtain ⟨h1, h2⟩ := DocBotPage.fetchLoop_thrown_reason (transport url options)
    retries.toNat 0 delay 0 [] e h
  simpa using h2

/-- Witness for the amended C7 at a concrete input: budget 2 against an
always-429 transport raises the reason of the second (last) attempt. -/
theorem C7_amended_witness :
    rateLimitMsg = outcomeReason (alwaysRateLimited exampleUrl exampleOptions
      ((DocBotPage.fetchWithBackoff exampleUrl exampleOptions alwaysRateLimited 2 1000).attempts
        - 1)) :=
  C7_error_carries_last_reason exampleUrl exampleOptions alwaysRateLimited 2 1000
    rateLimitMsg rfl

/-- C8: the two verbatim copies of the retry helper — the one in
`DocBotPage` and the one in `PredictionPage` — are extensionally equal: on
every url, options, transport behaviour, budget and delay they produce the
identical trace of attempts, waits and result. -/
theorem C8_copies_extensionally_equal (url options : String)
    (transport : String → String → Nat → FetchOutcome) (retries : Int) (delay : Nat) :
    DocBotPage.fetchWithBackoff url options transport retries delay
      = PredictionPage.fetchWithBackoff url options transport retries delay :=
  fetchLoop_copies_eq (transport url options) retries.toNat 0 delay 0 []

/-- C9 counterexample: the backoff multiplier is not configurable — no
choice of url, options, transport, budget or delay makes the code wait
1000 ms and then 3000 ms (as a policy with `initialDelay = 1000` and
`backoffMultiplier = 3` would), because consecutive waits always double. -/
theorem C9_multiplier_not_configurable :
    ¬ ∃ (url options : String) (transport : String → String → Nat → FetchOutcome)
        (retries : Int) (delay : Nat),
      (DocBotPage.fetchWithBackoff url options transport retries delay).waits
        = [1000, 3000] := by
  rintro ⟨url, options, transport, retries, delay, h⟩
  obtain ⟨m, hm⟩ := DocBotPage.fetchLoop_waits (transport url options) retries.toNat 0 delay 0 []
  simp only [List.nil_append] at hm
  have hm' : (DocBotPage.fetchWithBackoff url options transport retries delay).waits
      = geomList delay m := hm
  rw [hm'] at h
  have hlen := congrArg List.length h
  rw [geomList_length] at hlen
  simp at hlen
  subst hlen
  have hg : geomList delay 2 = [delay * 2 ^ 0, delay * 2 ^ 1] := rfl
  rw [hg] at h
  simp only [pow_zero, pow_one, mul_one, List.cons.injEq, and_true] at h
  omega

/-- C9 amended: the defaults are an attempt budget of 3 and an initial
delay of 1000 ms; the budget is not mutated during execution; the backoff
multiplier is hard-coded to 2 — every call's wait list is the doubling
schedule `delay * 2 ^ j` — rather than a configurable policy field. -/
theorem C9_defaults_and_fixed_doubling :
    (∀ (url options : String) (transport : String → String → Nat → FetchOutcome),
      DocBotPage.fetchWithBackoffDefaults url options transport
        = DocBotPage.fetchWithBackoff url options transport 3 1000) ∧
    (∀ (url options : String) (transport : String → String → Nat → FetchOutcome)
        (retries : Int) (delay : Nat), ∃ m,
      (DocBotPage.fetchWithBackoff url options transport retries delay).waits
        = geomList delay m) := by
  refine ⟨fun _ _ _ => rfl, ?_⟩
  intro url options transport retries delay
  obtain ⟨m, hm⟩ := DocBotPage.fetchLoop_waits (transport url options) retries.toNat 0 delay 0 []
  exact ⟨m, by simpa using hm⟩

/-- C10: with a non-positive attempt budget, the loop body never runs: no
attempt is issued, no wait occurs, and the call resolves with the
undefined value — neither a response nor an error. -/
theorem C10_nonpositive_budget_returns_undefined (url options : String)
    (transport : String → String → Nat → FetchOutcome) (retries : Int) (delay : Nat)
    (hr : retries ≤ 0) :
    DocBotPage.fetchWithBackoff url options transport retries delay = ⟨0, [], .undef⟩ := by
  unfold DocBotPage.fetchWithBackoff
  rw [show retries.toNat = 0 by omega]
  rfl

/-- Witness for C10 at a concrete input: budget 0 yields the empty trace
with the undefined result. -/
theorem C10_witness :
    DocBotPage.fetchWithBackoff exampleUrl exampleOptions alwaysRateLimited 0 1000
      = ⟨0, [], .undef⟩ :=
  C10_nonpositive_budget_returns_undefined exampleUrl exampleOptions alwaysRateLimited 0 1000
    (by decide)
